import Mathlib

/-!
Verification of the deterministic code-analysis and test-generation core of
the `code_review_assistant` repository (`code_review_assistant/tools.py`).

The Python source is shallowly embedded below.  External collaborators
(the CPython `ast` parser and the `pycodestyle` backend) are modelled as
parameters satisfying the contracts the specification assigns to them;
everything else is translated directly from `tools.py`.
-/

namespace CodeReviewAssistant

/-! ## Python string primitives

`patAt pat s` models Python's "does `s` start with `pat`";
`patIn pat s` models Python's substring test `pat in s`. -/

def patAt : List Char → List Char → Bool
  | [], _ => true
  | _ :: _, [] => false
  | p :: ps, c :: cs => p == c && patAt ps cs

def patIn (pat : List Char) : List Char → Bool
  | [] => patAt pat []
  | c :: cs => patAt pat (c :: cs) || patIn pat cs

/-- Python's `pat in s` substring containment on strings. -/
def strHas (s pat : String) : Bool := patIn pat.data s.data

/-- Python's `s.startswith(p)`. -/
def pyStartsWith (s p : String) : Bool := patAt p.data s.data

/-- Python's `str.lower()` on the ASCII letters the generator's patterns
use. -/
def pyCharLower (c : Char) : Char :=
  if 'A' ≤ c && c ≤ 'Z' then Char.ofNat (c.toNat + 32) else c

def pyLower (s : String) : String := ⟨s.data.map pyCharLower⟩

/-! ## Test Case Generator (`_generate_test_cases`) -/

/-- The `expected` value of a generated test case: an int or bool literal,
or the `'check_execution'` sentinel used by generic cases. -/
inductive Expected where
  | intVal (n : Int)
  | boolVal (b : Bool)
  | checkExecution
deriving DecidableEq, Repr

structure TestCase where
  input : List Int
  expected : Expected
  description : String
deriving DecidableEq, Repr

/-- Does the function name match one of the named patterns tested by
`_generate_test_cases` (case-insensitive substring checks)? -/
def matchesNamedPattern (funcName : String) : Bool :=
  let funcLower := pyLower funcName
  strHas funcLower "add" || strHas funcLower "sum" || strHas funcLower "subtract" ||
  strHas funcLower "multiply" || strHas funcLower "fibonacci" ||
  strHas funcLower "factorial" || strHas funcLower "prime"

/-- Embedding of `_generate_test_cases(func_name, args)`: dispatch on
lowercase substring matches of the function name, otherwise generic cases
keyed by parameter count; the final list is truncated to 3. -/
def generateTestCases (funcName : String) (args : List String) : List TestCase :=
  let funcLower := pyLower funcName
  let testCases : List TestCase :=
    if strHas funcLower "add" || strHas funcLower "sum" then
      [⟨[2, 3], .intVal 5, "Basic addition"⟩,
       ⟨[0, 0], .intVal 0, "Adding zeros"⟩,
       ⟨[-1, 1], .intVal 0, "Positive and negative"⟩]
    else if strHas funcLower "subtract" then
      [⟨[5, 3], .intVal 2, "Basic subtraction"⟩,
       ⟨[0, 0], .intVal 0, "Subtracting zeros"⟩]
    else if strHas funcLower "multiply" then
      [⟨[3, 4], .intVal 12, "Basic multiplication"⟩,
       ⟨[0, 5], .intVal 0, "Multiply by zero"⟩]
    else if strHas funcLower "fibonacci" then
      [⟨[0], .intVal 0, "Fibonacci of 0"⟩,
       ⟨[1], .intVal 1, "Fibonacci of 1"⟩,
       ⟨[5], .intVal 5, "Fibonacci of 5"⟩]
    else if strHas funcLower "factorial" then
      [⟨[0], .intVal 1, "Factorial of 0"⟩,
       ⟨[5], .intVal 120, "Factorial of 5"⟩]
    else if strHas funcLower "prime" then
      [⟨[2], .boolVal true, "2 is prime"⟩,
       ⟨[4], .boolVal false, "4 is not prime"⟩]
    else
      if args.length == 0 then
        [⟨[], .checkExecution, "No arguments"⟩]
      else if args.length == 1 then
        [⟨[1], .checkExecution, "Single argument"⟩,
         ⟨[0], .checkExecution, "Zero input"⟩]
      else
        [⟨List.replicate args.length 1, .checkExecution,
          toString args.length ++ " arguments"⟩]
  testCases.take 3

/-! ## Test Harness execution semantics

The script emitted by `_generate_executable_test_code` runs, for every public
function, the generated test cases, recording one outcome per case and then a
JSON summary.  `runHarness` is the Lean embedding of the semantics of that
emitted script; the behaviour of the embedded user functions is supplied as a
parameter (a call either raises or returns a value). -/

/-- A Python runtime value, as far as the generated comparisons observe it. -/
inductive PyVal where
  | intV (n : Int)
  | boolV (b : Bool)
  | otherV
deriving DecidableEq, Repr

/-- Outcome of calling one of the embedded functions on a test input. -/
inductive CallRes where
  | raises (msg ty : String)
  | returns (v : PyVal)
deriving DecidableEq, Repr

/-- Behaviour of the embedded source: what each function call does. -/
def Beh : Type := String → List Int → CallRes

/-- Python `result == expected` for the literal expected values the generator
emits (Python's `bool` is an `int` subclass, so `True == 1`). -/
def pyEqExpected : PyVal → Expected → Bool
  | .intV n, .intVal m => n == m
  | .intV n, .boolVal b => n == (if b then (1 : Int) else 0)
  | .boolV b, .intVal m => (if b then (1 : Int) else 0) == m
  | .boolV b, .boolVal c => b == c
  | _, .checkExecution => false
  | .otherV, _ => false

/-- One recorded test outcome (display-only fields such as the truncated
`str(result)` are elided; `error` carries `(str(e), type(e).__name__)`). -/
structure CaseOutcome where
  function : String
  caseIdx : Nat
  passed : Bool
  executionOnly : Bool
  error : Option (String × String)
  description : String
deriving DecidableEq, Repr

/-- Semantics of one emitted per-case `try/except` block. -/
def runCase (beh : Beh) (funcName : String) (idx : Nat) (tc : TestCase) : CaseOutcome :=
  match beh funcName tc.input with
  | .raises msg ty =>
    { function := funcName, caseIdx := idx, passed := false,
      executionOnly := false, error := some (msg, ty), description := tc.description }
  | .returns v =>
    match tc.expected with
    | .checkExecution =>
      { function := funcName, caseIdx := idx, passed := true,
        executionOnly := true, error := none, description := tc.description }
    | e =>
      { function := funcName, caseIdx := idx, passed := pyEqExpected v e,
        executionOnly := false, error := none, description := tc.description }

structure FuncSig where
  name : String
  args : List String
deriving DecidableEq, Repr

/-- The filter in `_generate_executable_test_code`: skip functions whose name
starts with an underscore or is literally `main`. -/
def publicFunctions (functions : List FuncSig) : List FuncSig :=
  functions.filter (fun f => !(pyStartsWith f.name "_" || f.name == "main"))

/-- All outcomes recorded by the emitted harness, in emission order
(test-case indices are 1-based, as in the generated script). -/
def harnessOutcomes (beh : Beh) (functions : List FuncSig) : List CaseOutcome :=
  (publicFunctions functions).flatMap fun f =>
    ((generateTestCases f.name f.args).enum).map fun p =>
      runCase beh f.name (p.1 + 1) p.2

/-- The JSON summary object printed by the emitted harness. -/
structure ExecResult where
  passed : Nat
  failed : Nat
  total : Nat
  passRate : ℚ
  details : List CaseOutcome
  executionErrors : List String
deriving DecidableEq, Repr

/-- Semantics of the summary section of the emitted harness. -/
def runHarness (beh : Beh) (functions : List FuncSig) : ExecResult :=
  let rs := harnessOutcomes beh functions
  let passed := rs.countP (fun r => r.passed)
  let failed := rs.countP (fun r => !r.passed)
  let total := rs.length
  { passed := passed, failed := failed, total := total,
    passRate := if total > 0 then (passed : ℚ) / (total : ℚ) * 100 else 100,
    details := rs.take 10,
    executionErrors :=
      (rs.filterMap fun r =>
        r.error.map fun e =>
          r.function ++ " test " ++ toString r.caseIdx ++ ": " ++ e.1).take 5 }

/-! ## Test Harness Builder (`_generate_executable_test_code`) — emitted text

`generateExecutableTestCode` reproduces the script text the Python function
builds by joining `test_lines` with newlines.  The ambient process state
available to the module (wall clock via `datetime`, any randomness source) is
passed in explicitly as `Env`; the source never consults it while emitting
the script, which is what the determinism claim is about. -/

/-- Ambient process state available to `tools.py` at generation time. -/
structure Env where
  wallClock : String
  randomSeed : Nat

/-- Python `str` of a list of ints, e.g. `[2, 3]`. -/
def pyIntListStr (xs : List Int) : String :=
  "[" ++ String.intercalate ", " (xs.map toString) ++ "]"

/-- Python `repr` of a generated `expected` value. -/
def reprExpected : Expected → String
  | .intVal n => toString n
  | .boolVal b => if b then "True" else "False"
  | .checkExecution => "'check_execution'"

/-- The per-case f-string block appended to `test_lines` (`i` is 0-based as
in the Python `enumerate`; the emitted text shows `i + 1`). -/
def testCaseBlock (funcName : String) (i : Nat) (tc : TestCase) : String :=
  let idx := toString (i + 1)
  let inp := pyIntListStr tc.input
  let desc := tc.description
  String.intercalate "\n"
    ["",
     "# Test case " ++ idx ++ " for " ++ funcName ++ ": " ++ desc,
     "try:",
     "    test_input = " ++ inp,
     "    result = " ++ funcName ++ "(*test_input)",
     "    expected = " ++ reprExpected tc.expected,
     "",
     "    if expected == 'check_execution':",
     "        # Just verify it executes without error",
     "        test_results.append(\x7b",
     "            'function': '" ++ funcName ++ "',",
     "            'case': " ++ idx ++ ",",
     "            'passed': True,",
     "            'result': str(result)[:100],  # Truncate long results",
     "            'input': str(test_input),",
     "            'execution_only': True,",
     "            'description': '" ++ desc ++ "'",
     "        \x7d)",
     "    else:",
     "        # Check if result matches expected",
     "        passed = result == expected",
     "        test_results.append(\x7b",
     "            'function': '" ++ funcName ++ "',",
     "            'case': " ++ idx ++ ",",
     "            'passed': passed,",
     "            'result': str(result),",
     "            'expected': str(expected),",
     "            'input': str(test_input),",
     "            'description': '" ++ desc ++ "'",
     "        \x7d)",
     "except Exception as e:",
     "    test_results.append(\x7b",
     "        'function': '" ++ funcName ++ "',",
     "        'case': " ++ idx ++ ",",
     "        'passed': False,",
     "        'error': str(e),",
     "        'error_type': type(e).__name__,",
     "        'input': str(" ++ inp ++ "),",
     "        'description': '" ++ desc ++ "'",
     "    \x7d)",
     "    execution_errors.append(f\"" ++ funcName ++ " test " ++ idx ++
       ": \x7bstr(e)\x7d\")",
     ""]

/-- The fixed summary block appended after all per-function sections. -/
def summaryBlock : String :=
  String.intercalate "\n"
    ["",
     "# Calculate summary",
     "passed = sum(1 for r in test_results if r.get('passed', False))",
     "failed = sum(1 for r in test_results if not r.get('passed', False))",
     "total = len(test_results)",
     "",
     "# Create output structure",
     "output = \x7b",
     "    'passed': passed,",
     "    'failed': failed,",
     "    'total': total,",
     "    'pass_rate': (passed / total * 100) if total > 0 else 100,",
     "    'details': test_results[:10],  # First 10 results for feedback",
     "    'execution_errors': execution_errors[:5] if execution_errors else []",
     "\x7d",
     "",
     "# Output as JSON (this will be captured by the code executor)",
     "print(json.dumps(output, indent=2))",
     ""]

/-- Embedding of `_generate_executable_test_code(code, functions)`:
the header lines, the original source verbatim, one section per public
function with its test-case blocks, then the summary block, joined with
newlines.  `env` is never consulted. -/
def generateExecutableTestCode (env : Env) (code : String)
    (functions : List FuncSig) : String :=
  let header : List String :=
    ["# Automated test execution for code review",
     "\x69mport json",
     "\x69mport sys",
     "\x69mport traceback",
     "",
     "# Initialize test results",
     "test_results = []",
     "execution_errors = []",
     "",
     "# Define the code to test",
     code,
     "",
     "# Test each function"]
  let funcSections : List String :=
    (publicFunctions functions).flatMap fun f =>
      ["\n# Testing function: " ++ f.name,
       "print('Testing " ++ f.name ++ "...', file=sys.stderr)"] ++
      ((generateTestCases f.name f.args).enum).map fun p =>
        testCaseBlock f.name p.1 p.2
  let _ := env
  String.intercalate "\n" (header ++ funcSections ++ [summaryBlock])

/-! ## Style Scorer (`check_code_style` / `_perform_style_check`)

The pycodestyle backend is the collaborator: per the spec's contract it
returns, for a configuration and a source text, the ordered sequence of
violations found scanning top-to-bottom.  `_perform_style_check` builds TWO
backend scanners: a `StyleGuide` with the relaxed configuration (whose
result it discards) and a bare `pycodestyle.Checker` constructed with no
options (hence pycodestyle's defaults), whose `results` it counts. -/

/-- A style violation as reported by the backend. -/
structure Violation where
  line : Nat
  column : Nat
  code : String
  message : String
deriving DecidableEq, Repr

/-- A raw entry of `checker.results`; the source keeps only entries that are
tuples of length at least 4. -/
inductive RawEntry where
  | tup (line column : Nat) (vcode vmsg : String)
  | malformed
deriving DecidableEq, Repr

/-- Configuration handed to a pycodestyle scanner. -/
structure StyleConfig where
  maxLineLength : Nat
  ignore : List String
deriving DecidableEq, Repr

/-- The relaxed configuration built by `_perform_style_check`:
`StyleGuide(quiet=True, max_line_length=100, ignore=['E501', 'W503'])`. -/
def relaxedStyleGuide : StyleConfig := ⟨100, ["E501", "W503"]⟩

/-- The configuration of a bare `pycodestyle.Checker(...)` constructed with
no options: pycodestyle's documented defaults, `max_line_length=79` and
`DEFAULT_IGNORE = E121,E123,E126,E226,E24,E704,W503,W504`. -/
def defaultCheckerConfig : StyleConfig :=
  ⟨79, ["E121", "E123", "E126", "E226", "E24", "E704", "W503", "W504"]⟩

/-- The loop `for error in checker.results: if isinstance(error, tuple) and
len(error) >= 4: issues.append(...)`. -/
def wellFormedViolations (rs : List RawEntry) : List Violation :=
  rs.filterMap fun e =>
    match e with
    | .tup l c vc vm => some ⟨l, c, vc, vm⟩
    | .malformed => none

/-- The dictionary returned by a successful `_perform_style_check`. -/
structure StyleResult where
  status : String
  score : Int
  issue_count : Nat
  issues : List Violation
  summary : String
deriving DecidableEq, Repr

/-- Embedding of `_perform_style_check(code)` over a backend `scan`
satisfying the spec's checker contract.  The relaxed `StyleGuide` scan is
performed and its result discarded; the issues are collected from the
default-configured `Checker`. -/
def performStyleCheck (scan : StyleConfig → String → List RawEntry)
    (code : String) : StyleResult :=
  let _guideResult := scan relaxedStyleGuide code
  let issues := wellFormedViolations (scan defaultCheckerConfig code)
  let baseScore : Int := 100
  let deductionPerIssue : Int := 3
  let score : Int := max 0 (baseScore - (issues.length * deductionPerIssue))
  { status := "success",
    score := score,
    issue_count := issues.length,
    issues := issues.take 10,
    summary := "Style score: " ++ toString score ++ "/100 with " ++
      toString issues.length ++ " violations" }

/-- The session-state writes performed by `check_code_style`. -/
structure StyleStateWrites where
  styleScore : Option Int
  styleIssues : Option (List Violation)
  styleIssueCount : Option Nat
deriving DecidableEq, Repr

/-- The value returned by `check_code_style`: either the successful result
dictionary, or the error dictionary `{status: "error", message, score: 0}`. -/
inductive StyleReturn where
  | okReport (r : StyleResult)
  | errReport (message : String) (score : Int)
deriving DecidableEq, Repr

/-- Embedding of the happy/except paths of `check_code_style`: the backend
outcome is either the result dictionary computed in the thread pool or a
propagating exception message, which the tool catches, degrading to score 0
with the issue list cleared in state. -/
def checkCodeStyle (backendOutcome : Except String StyleResult) :
    StyleStateWrites × StyleReturn :=
  match backendOutcome with
  | .ok r =>
    (⟨some r.score, some r.issues, some r.issue_count⟩, .okReport r)
  | .error emsg =>
    (⟨some 0, some [], none⟩,
     .errReport ("Style check failed: " ++ emsg) 0)

/-! ## Structure Analyzer (`analyze_code_structure` / `_extract_code_structure`)

The CPython AST is modelled by `PyNode`: the node kinds the extractor
distinguishes, plus `stmtOther` for any other statement that can hold nested
definitions in its body.  `ast.FunctionDef` and `ast.AsyncFunctionDef` are
separate constructors because in CPython's `ast` module `AsyncFunctionDef`
is not a subclass of `FunctionDef`, so `isinstance(node, ast.FunctionDef)`
is false for async definitions. -/

structure ImportAlias where
  name : String
  asname : Option String
deriving DecidableEq, Repr

/-- A decorator or base-class expression: a simple `ast.Name` or anything
else (which the extractor's `isinstance(d, ast.Name)` filters drop). -/
inductive PyExprRef where
  | nameId (s : String)
  | otherExpr
deriving DecidableEq, Repr

inductive PyNode where
  | module (body : List PyNode)
  | funcDef (name : String) (args : List String) (lineno : Nat)
      (endLineno : Option Nat) (docstring : Option String)
      (decoratorList : List PyExprRef) (body : List PyNode)
  | asyncFuncDef (name : String) (args : List String) (lineno : Nat)
      (endLineno : Option Nat) (docstring : Option String)
      (decoratorList : List PyExprRef) (body : List PyNode)
  | classDef (name : String) (lineno : Nat) (docstring : Option String)
      (bases : List PyExprRef) (body : List PyNode)
  | importPlain (aliases : List ImportAlias) (lineno : Nat)
  | importFrom (mod : Option String) (names : List String) (level : Nat)
      (lineno : Nat)
  | stmtOther (body : List PyNode)

/-- The child statements `ast.iter_child_nodes` yields that can contain
further definitions. -/
def PyNode.children : PyNode → List PyNode
  | .module body => body
  | .funcDef _ _ _ _ _ _ body => body
  | .asyncFuncDef _ _ _ _ _ _ body => body
  | .classDef _ _ _ _ body => body
  | .importPlain _ _ => []
  | .importFrom _ _ _ _ => []
  | .stmtOther body => body

/-- `ast.walk`: a deque seeded with the root; each iteration pops the front
node, yields it, and appends its children — breadth-first order.  Stated on
a worklist: yield the whole current level, then walk the concatenation of
its children. -/
def walkList (ns : List PyNode) : List PyNode :=
  match ns with
  | [] => []
  | a :: rest => (a :: rest) ++ walkList ((a :: rest).flatMap PyNode.children)
termination_by sizeOf ns
decreasing_by
  have hlistAlias : ∀ l : List ImportAlias, 1 ≤ sizeOf l := by
    intro l; cases l <;> simp <;> omega
  have hlistStr : ∀ l : List String, 1 ≤ sizeOf l := by
    intro l; cases l <;> simp <;> omega
  have hchild : ∀ n : PyNode, sizeOf n.children < sizeOf n := by
    intro n
    cases n with
    | module body => simp [PyNode.children]
    | funcDef name args lineno endLineno doc decs body =>
      simp [PyNode.children]
    | asyncFuncDef name args lineno endLineno doc decs body =>
      simp [PyNode.children]
    | classDef name lineno doc bases body => simp [PyNode.children]
    | importPlain aliases lineno =>
      have := hlistAlias aliases
      simp [PyNode.children]; omega
    | importFrom m names level lineno =>
      have := hlistStr names
      simp [PyNode.children]; omega
    | stmtOther body => simp [PyNode.children]
  have happ : ∀ l₁ l₂ : List PyNode, sizeOf (l₁ ++ l₂) + 1 = sizeOf l₁ + sizeOf l₂ := by
    intro l₁ l₂
    induction l₁ with
    | nil => simp; omega
    | cons x xs ih => simp only [List.cons_append, List.cons.sizeOf_spec]; omega
  have hflat : ∀ l : List PyNode, sizeOf (l.flatMap PyNode.children) + l.length ≤ sizeOf l := by
    intro l
    induction l with
    | nil => simp [List.flatMap]
    | cons x xs ih =>
      have hx := hchild x
      have ha := happ x.children (xs.flatMap PyNode.children)
      simp only [List.flatMap_cons, List.length_cons, List.cons.sizeOf_spec]
      omega
  have := hflat (a :: rest)
  simp only [List.length_cons] at this
  omega

structure FunctionInfo where
  name : String
  args : List String
  lineno : Nat
  has_docstring : Bool
  is_async : Bool
  decorators : List String
deriving DecidableEq, Repr

structure ClassInfo where
  name : String
  lineno : Nat
  methods : List String
  has_docstring : Bool
  base_classes : List String
deriving DecidableEq, Repr

inductive ImportInfo where
  | plainImport (mod : String) (asname : Option String)
  | fromImport (mod : String) (names : List String) (level : Nat)
deriving DecidableEq, Repr

def nameIdOf : PyExprRef → Option String
  | .nameId s => some s
  | .otherExpr => none

/-- The `isinstance(node, ast.FunctionDef)` branch of the walk loop.
`is_async` translates `isinstance(node, ast.AsyncFunctionDef)`, which is
false here: the matched node is an `ast.FunctionDef` and `AsyncFunctionDef`
is not a subclass of it. -/
def funcInfoOf : PyNode → Option FunctionInfo
  | .funcDef name args lineno _ doc decs _ =>
    some { name := name, args := args, lineno := lineno,
           has_docstring := doc.isSome, is_async := false,
           decorators := decs.filterMap nameIdOf }
  | _ => none

/-- Method names of a class: direct body items that are `ast.FunctionDef`
instances (async methods are not). -/
def methodNameOf : PyNode → Option String
  | .funcDef name _ _ _ _ _ _ => some name
  | _ => none

def classInfoOf : PyNode → Option ClassInfo
  | .classDef name lineno doc bases body =>
    some { name := name, lineno := lineno,
           methods := body.filterMap methodNameOf,
           has_docstring := doc.isSome,
           base_classes := bases.filterMap nameIdOf }
  | _ => none

/-- The `ast.Import` branch appends one record per alias; the
`ast.ImportFrom` branch appends a single record with `node.module or ''`. -/
def importsOf : PyNode → List ImportInfo
  | .importPlain aliases _ => aliases.map fun a => .plainImport a.name a.asname
  | .importFrom m names level _ => [.fromImport (m.getD "") names level]
  | _ => []

/-- The diagnostic docstring excerpt collected for documented functions:
`f"{node.name}: {ast.get_docstring(node)[:50]}..."`. -/
def docstringEntryOf : PyNode → Option String
  | .funcDef name _ _ _ (some doc) _ _ =>
    some (name ++ ": " ++ doc.take 50 ++ "...")
  | _ => none

/-- `_calculate_avg_function_length`: function length in lines for
`ast.FunctionDef` nodes with resolvable start/end lines. -/
def funcLengthOf : PyNode → Option Int
  | .funcDef _ _ lineno (some endL) _ _ _ =>
    some ((endL : Int) - (lineno : Int) + 1)
  | _ => none

def avgFunctionLength (nodes : List PyNode) : ℚ :=
  let lengths := nodes.filterMap funcLengthOf
  if lengths.isEmpty then 0
  else ((lengths.sum : Int) : ℚ) / (lengths.length : ℚ)

/-- Python `str.splitlines` restricted to `\n` terminators: no entry for a
trailing terminator, and the empty string has no lines. -/
def pySplitlines (s : String) : List String :=
  if s = "" then []
  else
    let parts := s.splitOn "\n"
    if parts.getLast? == some "" then parts.dropLast else parts

structure Metrics where
  line_count : Nat
  function_count : Nat
  class_count : Nat
  import_count : Nat
  has_main : Bool
  has_if_main : Bool
  avg_function_length : ℚ

structure Analysis where
  functions : List FunctionInfo
  classes : List ClassInfo
  imports : List ImportInfo
  docstrings : List String
  metrics : Metrics

/-- Embedding of `_extract_code_structure(tree, code)`: one pass over
`ast.walk(tree)` appending to the four collections (split here into one
filter per collection; each node feeds at most one of them, except that a
documented function feeds both `functions` and `docstrings`). -/
def extractCodeStructure (tree : PyNode) (code : String) : Analysis :=
  let nodes := walkList [tree]
  let functions := nodes.filterMap funcInfoOf
  let classes := nodes.filterMap classInfoOf
  let imports := nodes.flatMap importsOf
  let docstrings := nodes.filterMap docstringEntryOf
  { functions := functions, classes := classes, imports := imports,
    docstrings := docstrings,
    metrics :=
      { line_count := (pySplitlines code).length,
        function_count := functions.length,
        class_count := classes.length,
        import_count := imports.length,
        has_main := functions.any fun f => f.name == "main",
        has_if_main := strHas code "__main__",
        avg_function_length := avgFunctionLength nodes } }

/-- A Python `SyntaxError` as the analyzer reads it: message, `lineno`,
`offset`. -/
structure SynErr where
  msg : String
  lineno : Nat
  offset : Nat
deriving DecidableEq, Repr

/-- The tool's `code` argument: a string, or a non-string value (which the
`not code or not isinstance(code, str)` guard rejects either way). -/
inductive PyInput where
  | pyStr (s : String)
  | nonString
deriving DecidableEq, Repr

inductive AnalyzeResult where
  | inputError (message : String)
  | syntaxError (message : String) (line : Nat) (offset : Nat)
  | success (analysis : Analysis) (summary : String)

def AnalyzeResult.isInputErr : AnalyzeResult → Bool
  | .inputError _ => true
  | _ => false

def AnalyzeResult.isSuccess : AnalyzeResult → Bool
  | .success _ _ => true
  | _ => false

/-- The session-state writes `analyze_code_structure` performs. -/
structure AnalyzeStateWrites where
  codeToReview : Option String
  codeLineCount : Option Nat
  codeAnalysis : Option Analysis
  syntaxErrorMsg : Option String
  analysisTimestamp : Option String

def emptyAnalyzeWrites : AnalyzeStateWrites :=
  ⟨none, none, none, none, none⟩

/-- Embedding of `analyze_code_structure(code, tool_context)` over the
CPython parser `parse` (the external collaborator; a failure is a
`SyntaxError` with line and offset).  Input validation runs first and
returns before any state write; on the happy path the code and its line
count are stored before parsing, so they are also written when the parse
fails. -/
def analyzeCodeStructure (env : Env) (parse : String → Except SynErr PyNode)
    (input : PyInput) : AnalyzeStateWrites × AnalyzeResult :=
  match input with
  | .nonString =>
    (emptyAnalyzeWrites, .inputError "No code provided or invalid input")
  | .pyStr code =>
    if code = "" then
      (emptyAnalyzeWrites, .inputError "No code provided or invalid input")
    else
      match parse code with
      | .error e =>
        let errorMsg :=
          "Syntax error at line " ++ toString e.lineno ++ ": " ++ e.msg
        ({ codeToReview := some code,
           codeLineCount := some (pySplitlines code).length,
           codeAnalysis := none, syntaxErrorMsg := some errorMsg,
           analysisTimestamp := none },
         .syntaxError errorMsg e.lineno e.offset)
      | .ok tree =>
        let analysis := extractCodeStructure tree code
        ({ codeToReview := some code,
           codeLineCount := some (pySplitlines code).length,
           codeAnalysis := some analysis, syntaxErrorMsg := none,
           analysisTimestamp := some env.wallClock },
         .success analysis
           ("Found " ++ toString analysis.metrics.function_count ++
            " functions and " ++ toString analysis.metrics.class_count ++
            " classes"))

/-- Is the node one of the statements the extractor collects
(function/class definition or import)? -/
def isDefNode : PyNode → Bool
  | .funcDef .. => true
  | .asyncFuncDef .. => true
  | .classDef .. => true
  | .importPlain .. => true
  | .importFrom .. => true
  | _ => false

/-- No definition or import statement occurs anywhere in (or below) `ns`. -/
def defFreeL (ns : List PyNode) : Bool :=
  (walkList ns).all fun n => !isDefNode n

def PyNode.linenoOf : PyNode → Nat
  | .module _ => 0
  | .funcDef _ _ l _ _ _ _ => l
  | .asyncFuncDef _ _ l _ _ _ _ => l
  | .classDef _ l _ _ _ => l
  | .importPlain _ l => l
  | .importFrom _ _ _ l => l
  | .stmtOther _ => 0

/-- `isinstance(node, ast.AsyncFunctionDef)`. -/
def isInstanceAsyncFunctionDef : PyNode → Bool
  | .asyncFuncDef .. => true
  | _ => false

/-! ## Concrete inputs used to settle individual claims -/

/-- A single source line of exactly 90 characters,
`x = 'aaa…a'` (84 `a`s between the quotes). -/
def longLine90 : String := "x = '" ++ ⟨List.replicate 84 'a'⟩ ++ "'"

/-- The pycodestyle backend's behaviour on the source `longLine90`, per its
documented line-length check: one `E501` violation reported at the column
after the configured maximum exactly when the 90-character line exceeds
`max_line_length` and `E501` is not in the configuration's ignore list. -/
def pycodestyleOnLongLine (cfg : StyleConfig) (src : String) : List RawEntry :=
  if src = longLine90 && decide (cfg.maxLineLength < 90) &&
      !(cfg.ignore.contains "E501") then
    [.tup 1 (cfg.maxLineLength + 1) "E501"
      ("line too long (90 > " ++ toString cfg.maxLineLength ++ " characters)")]
  else []

/-- `async def fetch(url):\n    return url`. -/
def asyncOnlySrc : String := "async def fetch(url):\n    return url"

/-- The AST of `asyncOnlySrc`: a module whose only statement is an
`ast.AsyncFunctionDef`. -/
def asyncOnlyTree : PyNode :=
  .module [.asyncFuncDef "fetch" ["url"] 1 (some 2) none [] [.stmtOther []]]

/-- Source with a nested function: `inner` is declared on line 2, inside
`outer`, and `later` on line 4 after it. -/
def nestedSrc : String :=
  "def outer():\n    def inner():\n        pass\ndef later():\n    pass"

/-- The AST of `nestedSrc`. -/
def nestedTree : PyNode :=
  .module
    [.funcDef "outer" [] 1 (some 3) none []
       [.funcDef "inner" [] 2 (some 3) none [] [.stmtOther []]],
     .funcDef "later" [] 4 (some 5) none [] [.stmtOther []]]

/-- A fixed ambient environment for witnesses. -/
def env0 : Env := ⟨"2026-10-12T00:00:00", 0⟩

/-- CPython's parser on the witness input `def f(`: it raises
`SyntaxError("'(' was never closed")` with `lineno = 1`, `offset = 6`. -/
def parseUnclosedParen : String → Except SynErr PyNode := fun _ =>
  .error ⟨"'(' was never closed", 1, 6⟩

/-! ## Theorems -/

/-- C1: for every source text on which the style check's backend scan
succeeds, the returned report satisfies `score = max(0, 100 - 3*N)` for `N`
the untruncated number of violations found, `issue_count = N`, the issue
detail list is the first 10 violations in scan order, and the score lies in
`[0, 100]`. -/
theorem C1_style_report_invariants
    (scan : StyleConfig → String → List RawEntry) (code : String) :
    (performStyleCheck scan code).score =
      max 0 (100 - 3 *
        ((wellFormedViolations (scan defaultCheckerConfig code)).length : Int)) ∧
    (performStyleCheck scan code).issue_count =
      (wellFormedViolations (scan defaultCheckerConfig code)).length ∧
    (performStyleCheck scan code).issues =
      (wellFormedViolations (scan defaultCheckerConfig code)).take 10 ∧
    0 ≤ (performStyleCheck scan code).score ∧
    (performStyleCheck scan code).score ≤ 100 := by
  refine ⟨?_, rfl, rfl, ?_, ?_⟩
  · show max 0 (100 - ((wellFormedViolations (scan defaultCheckerConfig code)).length : Int) * 3) = _
    omega
  · show (0 : Int) ≤ max 0 (100 - ((wellFormedViolations (scan defaultCheckerConfig code)).length : Int) * 3)
    omega
  · show max 0 (100 - ((wellFormedViolations (scan defaultCheckerConfig code)).length : Int) * 3) ≤ 100
    omega

/-- C5: when the style-check backend throws, `check_code_style` does not
propagate the exception: the returned dictionary carries score 0 and the
error message, and the issue list recorded in state is cleared to empty. -/
theorem C5_style_backend_failure_degrades (emsg : String) :
    (checkCodeStyle (Except.error emsg)).2 =
      .errReport ("Style check failed: " ++ emsg) 0 ∧
    (checkCodeStyle (Except.error emsg)).1.styleIssues = some [] ∧
    (checkCodeStyle (Except.error emsg)).1.styleScore = some 0 :=
  ⟨rfl, rfl, rfl⟩

/-- C2: counterexample evaluation at the failing input.  On a source that is
one 90-character line, the violations counted by `_perform_style_check` come
from the default-configured `Checker`, so an `E501` violation (suppressed in
the relaxed configuration) is counted: `issue_count = 1`, the counted issue
carries code `E501` and the score drops to 97, even though the relaxed
configuration's scan of the same source finds nothing. -/
theorem C2_default_checker_counts_E501 :
    (performStyleCheck pycodestyleOnLongLine longLine90).issue_count = 1 ∧
    ((performStyleCheck pycodestyleOnLongLine longLine90).issues.map
      fun v => v.code) = ["E501"] ∧
    (performStyleCheck pycodestyleOnLongLine longLine90).score = 97 ∧
    wellFormedViolations (pycodestyleOnLongLine relaxedStyleGuide longLine90) = [] := by
  refine ⟨?_, ?_, ?_, ?_⟩ <;> decide

/-- C9: the Test Harness Builder is deterministic — the emitted script text
does not depend on the ambient environment (wall clock, randomness), only on
the fixed `(code, functions)` inputs, so two calls yield identical text. -/
theorem C9_harness_text_deterministic (e₁ e₂ : Env) (code : String)
    (functions : List FuncSig) :
    generateExecutableTestCode e₁ code functions =
    generateExecutableTestCode e₂ code functions := rfl

/-- C10: for every function name and parameter list, the Test Case Generator
returns at least 1 and at most 3 test cases. -/
theorem C10_case_count_bounds (name : String) (args : List String) :
    1 ≤ (generateTestCases name args).length ∧
    (generateTestCases name args).length ≤ 3 := by
  constructor
  · unfold generateTestCases
    dsimp only
    repeat' split
    all_goals simp
  · unfold generateTestCases
    dsimp only
    repeat' split
    all_goals simp

/-- C3: for every function list and every behaviour of the embedded code,
the harness's JSON result satisfies `passed + failed = total` and
`total = 0 → pass_rate = 100`; in particular when the list has no public
function (or is empty) the emitted harness reports `total = 0` and
`pass_rate = 100`. -/
theorem C3_harness_totals (functions : List FuncSig) (beh : Beh) :
    (runHarness beh functions).passed + (runHarness beh functions).failed =
      (runHarness beh functions).total ∧
    ((runHarness beh functions).total = 0 →
      (runHarness beh functions).passRate = 100) ∧
    ((∀ f ∈ functions, pyStartsWith f.name "_" = true ∨ f.name = "main") →
      (runHarness beh functions).total = 0 ∧
      (runHarness beh functions).passRate = 100) := by
  refine ⟨?_, ?_, ?_⟩
  · show (harnessOutcomes beh functions).countP _ +
      (harnessOutcomes beh functions).countP _ =
      (harnessOutcomes beh functions).length
    simpa using (List.length_eq_countP_add_countP (fun r => r.passed)
      (harnessOutcomes beh functions)).symm
  · intro h
    have h' : (harnessOutcomes beh functions).length = 0 := h
    simp only [runHarness, h']
    norm_num
  · intro hall
    have hpub : publicFunctions functions = [] := by
      unfold publicFunctions
      rw [List.filter_eq_nil_iff]
      intro f hf
      rcases hall f hf with h | h <;> simp [h]
    have hout : harnessOutcomes beh functions = [] := by
      unfold harnessOutcomes
      rw [hpub]
      rfl
    constructor
    · show (harnessOutcomes beh functions).length = 0
      rw [hout]
      rfl
    · simp only [runHarness, hout]
      norm_num

/-- C3 witness: a function list holding only a private helper and `main`,
with a behaviour that always returns, yields `total = 0` and
`pass_rate = 100`, and `passed + failed = total`. -/
theorem C3_harness_totals_witness :
    (runHarness (fun _ _ => .returns (.intV 0))
        [⟨"_helper", ["x"]⟩, ⟨"main", []⟩]).total = 0 ∧
    (runHarness (fun _ _ => .returns (.intV 0))
        [⟨"_helper", ["x"]⟩, ⟨"main", []⟩]).passRate = 100 ∧
    (runHarness (fun _ _ => .returns (.intV 0))
        [⟨"_helper", ["x"]⟩, ⟨"main", []⟩]).passed +
      (runHarness (fun _ _ => .returns (.intV 0))
        [⟨"_helper", ["x"]⟩, ⟨"main", []⟩]).failed =
      (runHarness (fun _ _ => .returns (.intV 0))
        [⟨"_helper", ["x"]⟩, ⟨"main", []⟩]).total := by
  have h := C3_harness_totals [⟨"_helper", ["x"]⟩, ⟨"main", []⟩]
    (fun _ _ => .returns (.intV 0))
  have h3 := h.2.2 (by decide)
  exact ⟨h3.1, h3.2, h.1⟩

/-- C8: for every function name matching none of the named patterns, every
generated case carries the execution-only sentinel, and the harness records
a sentinel case as passed exactly when the call returns without raising —
the returned value is never compared. -/
theorem C8_generic_sentinel_execution_only (name : String) (args : List String)
    (h : matchesNamedPattern name = false) :
    (∀ tc ∈ generateTestCases name args,
      tc.expected = Expected.checkExecution) ∧
    (∀ tc : TestCase, tc.expected = Expected.checkExecution →
      ∀ (beh : Beh) (idx : Nat),
        ((runCase beh name idx tc).passed = true ↔
          ∃ v, beh name tc.input = CallRes.returns v)) := by
  constructor
  · unfold matchesNamedPattern at h
    simp only [Bool.or_eq_false_iff] at h
    obtain ⟨⟨⟨⟨⟨⟨h1, h2⟩, h3⟩, h4⟩, h5⟩, h6⟩, h7⟩ := h
    intro tc htc
    unfold generateTestCases at htc
    simp only [h1, h2, h3, h4, h5, h6, h7, Bool.or_self, Bool.false_eq_true,
      if_false] at htc
    split at htc
    · simp at htc
      simp [htc]
    · split at htc
      · simp at htc
        rcases htc with h | h <;> simp [h]
      · simp at htc
        simp [htc]
  · intro tc htc beh idx
    unfold runCase
    cases hb : beh name tc.input with
    | raises msg ty => simp [hb]
    | returns v => simp [hb, htc]

/-- C8 witness: the name `frobnicate` matches no pattern; its generated
cases are all sentinel cases, and a sentinel case against a behaviour that
returns is recorded as passed. -/
theorem C8_generic_sentinel_execution_only_witness :
    (∀ tc ∈ generateTestCases "frobnicate" ["x"],
      tc.expected = Expected.checkExecution) ∧
    ((runCase (fun _ _ => .returns .otherV) "frobnicate" 1
        ⟨[1], Expected.checkExecution, "Single argument"⟩).passed = true ↔
      ∃ v, (fun (_ : String) (_ : List Int) => CallRes.returns PyVal.otherV)
          "frobnicate" [1] = CallRes.returns v) := by
  have h := C8_generic_sentinel_execution_only "frobnicate" ["x"] (by decide)
  exact ⟨h.1, h.2 ⟨[1], Expected.checkExecution, "Single argument"⟩ rfl
    (fun _ _ => .returns .otherV) 1⟩

/-- C6: evaluation at the failing input.  On a module whose only statement
is an `async def`, the extractor's `functions` list is empty — the walk's
`isinstance(node, ast.FunctionDef)` check excludes `ast.AsyncFunctionDef`
nodes, which is not what the claim states (an entry with `is_async = true`).
The second conjunct shows the async definition is indeed in the walked
tree. -/
theorem C6_async_def_dropped :
    (extractCodeStructure asyncOnlyTree asyncOnlySrc).functions = [] ∧
    (extractCodeStructure asyncOnlyTree asyncOnlySrc).metrics.function_count = 0 ∧
    (walkList [asyncOnlyTree]).any isInstanceAsyncFunctionDef = true := by
  refine ⟨?_, ?_, ?_⟩
  · simp [asyncOnlyTree, extractCodeStructure, walkList, PyNode.children,
      funcInfoOf]
  · simp [asyncOnlyTree, extractCodeStructure, walkList, PyNode.children,
      funcInfoOf]
  · simp [asyncOnlyTree, walkList, PyNode.children, isInstanceAsyncFunctionDef]

/-- C7 counterexample: on `nestedSrc`, whose nested `inner` (line 2) is
declared before the later top-level `later` (line 4), the extracted
`functions` sequence has line numbers `[1, 4, 2]` — breadth-first order,
not source order. -/
theorem C7_nested_defs_not_source_order :
    ((extractCodeStructure nestedTree nestedSrc).functions.map
      fun f => f.lineno) = [1, 4, 2] ∧
    ¬ List.Pairwise (· ≤ ·)
      ((extractCodeStructure nestedTree nestedSrc).functions.map
        fun f => f.lineno) := by
  have h : ((extractCodeStructure nestedTree nestedSrc).functions.map
      fun f => f.lineno) = [1, 4, 2] := by
    simp [nestedTree, extractCodeStructure, walkList, PyNode.children,
      funcInfoOf]
  refine ⟨h, ?_⟩
  rw [h]
  decide

/-- C4: the Structure Analyzer returns an `InputError` exactly when the
input is a non-string or the empty string, and then performs no state write
at all; for every non-empty string the parser rejects, it returns a
`SyntaxAnalysisError` carrying the parser's exact failing line and offset,
stores no analysis, and produces no `StructuralSummary`. -/
theorem C4_analyzer_error_paths (env : Env)
    (parse : String → Except SynErr PyNode) (input : PyInput) :
    ((analyzeCodeStructure env parse input).2.isInputErr = true ↔
      input = .nonString ∨ input = .pyStr "") ∧
    ((analyzeCodeStructure env parse input).2.isInputErr = true →
      (analyzeCodeStructure env parse input).1 = emptyAnalyzeWrites) ∧
    (∀ s e, input = .pyStr s → s ≠ "" → parse s = .error e →
      (analyzeCodeStructure env parse input).2 =
        .syntaxError
          ("Syntax error at line " ++ toString e.lineno ++ ": " ++ e.msg)
          e.lineno e.offset ∧
      (analyzeCodeStructure env parse input).1.codeAnalysis = none ∧
      (analyzeCodeStructure env parse input).2.isSuccess = false) := by
  cases input with
  | nonString =>
    refine ⟨by simp [analyzeCodeStructure, AnalyzeResult.isInputErr], fun _ => rfl, ?_⟩
    intro s e hs
    exact absurd hs (by simp)
  | pyStr code =>
    by_cases hcode : code = ""
    · subst hcode
      refine ⟨by simp [analyzeCodeStructure, AnalyzeResult.isInputErr], fun _ => rfl, ?_⟩
      intro s e hs hne
      cases hs
      exact absurd rfl hne
    · cases hp : parse code with
      | error e =>
        refine ⟨?_, ?_, ?_⟩
        · simp [analyzeCodeStructure, hcode, hp, AnalyzeResult.isInputErr]
        · intro habs
          exfalso
          simp [analyzeCodeStructure, hcode, hp, AnalyzeResult.isInputErr] at habs
        · intro s e' hs hne hp'
          cases hs
          rw [hp] at hp'
          cases hp'
          refine ⟨?_, ?_, ?_⟩ <;>
            simp [analyzeCodeStructure, hcode, hp, AnalyzeResult.isSuccess]
      | ok tree =>
        refine ⟨?_, ?_, ?_⟩
        · simp [analyzeCodeStructure, hcode, hp, AnalyzeResult.isInputErr]
        · intro habs
          exfalso
          simp [analyzeCodeStructure, hcode, hp, AnalyzeResult.isInputErr] at habs
        · intro s e' hs hne hp'
          cases hs
          rw [hp] at hp'
          cases hp'

/-- C4 witness: on the unparseable source `def f(` the analyzer reports the
parser's syntax error at line 1, offset 6, writes no analysis to state, and
produces no summary; and on the empty string it reports an `InputError`. -/
theorem C4_analyzer_error_paths_witness :
    (analyzeCodeStructure env0 parseUnclosedParen (.pyStr "def f(")).2 =
      .syntaxError "Syntax error at line 1: '(' was never closed" 1 6 ∧
    (analyzeCodeStructure env0 parseUnclosedParen (.pyStr "def f(")).1.codeAnalysis =
      none ∧
    (analyzeCodeStructure env0 parseUnclosedParen (.pyStr "")).2.isInputErr = true := by
  have h := C4_analyzer_error_paths env0 parseUnclosedParen (.pyStr "def f(")
  have h3 := h.2.2 "def f(" ⟨"'(' was never closed", 1, 6⟩ rfl (by decide) rfl
  have h0 := (C4_analyzer_error_paths env0 parseUnclosedParen (.pyStr "")).1.mpr
    (Or.inr rfl)
  exact ⟨h3.1, h3.2.1, h0⟩

/-- C7 (amended): when every function, class, and import statement of the
module sits at top level (nothing below the top-level statements is a
definition or import), the extracted `functions`, `classes`, and `imports`
sequences are exactly the module body's contributions in body order — hence
source order — and the function/class line numbers are monotone whenever
the body statements are; with nested definitions the walk is breadth-first,
so deeper definitions come after all top-level ones (see the
counterexample). -/
theorem C7_top_level_defs_source_order (body : List PyNode) (code : String)
    (hflat : defFreeL (body.flatMap PyNode.children) = true)
    (hord : List.Pairwise (fun a b => a.linenoOf ≤ b.linenoOf) body) :
    (extractCodeStructure (.module body) code).functions =
      body.filterMap funcInfoOf ∧
    (extractCodeStructure (.module body) code).classes =
      body.filterMap classInfoOf ∧
    (extractCodeStructure (.module body) code).imports =
      body.flatMap importsOf ∧
    List.Pairwise (fun a b => a.lineno ≤ b.lineno)
      (extractCodeStructure (.module body) code).functions ∧
    List.Pairwise (fun a b => a.lineno ≤ b.lineno)
      (extractCodeStructure (.module body) code).classes := by
  have hinfo : ∀ n : PyNode, isDefNode n = false →
      funcInfoOf n = none ∧ classInfoOf n = none ∧ importsOf n = [] := by
    intro n h
    cases n <;> simp_all [isDefNode, funcInfoOf, classInfoOf, importsOf]
  have hfree : ∀ n ∈ walkList (body.flatMap PyNode.children),
      isDefNode n = false := by
    intro n hn
    have := (List.all_eq_true.mp hflat) n hn
    simpa using this
  have hwalk : walkList [PyNode.module body] =
      PyNode.module body :: walkList body := by
    simp only [walkList]
    simp [PyNode.children]
  have hbody : walkList body = body ++ walkList (body.flatMap PyNode.children) := by
    cases body with
    | nil => simp [walkList]
    | cons b bs => simp only [walkList]
  have hfuns : (extractCodeStructure (.module body) code).functions =
      body.filterMap funcInfoOf := by
    show (walkList [PyNode.module body]).filterMap funcInfoOf = _
    rw [hwalk, hbody]
    rw [List.filterMap_cons, List.filterMap_append]
    have hnil : (walkList (body.flatMap PyNode.children)).filterMap funcInfoOf
        = [] :=
      List.filterMap_eq_nil_iff.mpr fun n hn => (hinfo n (hfree n hn)).1
    simp [funcInfoOf, hnil]
  have hcls : (extractCodeStructure (.module body) code).classes =
      body.filterMap classInfoOf := by
    show (walkList [PyNode.module body]).filterMap classInfoOf = _
    rw [hwalk, hbody]
    rw [List.filterMap_cons, List.filterMap_append]
    have hnil : (walkList (body.flatMap PyNode.children)).filterMap classInfoOf
        = [] :=
      List.filterMap_eq_nil_iff.mpr fun n hn => (hinfo n (hfree n hn)).2.1
    simp [classInfoOf, hnil]
  have himp : (extractCodeStructure (.module body) code).imports =
      body.flatMap importsOf := by
    show (walkList [PyNode.module body]).flatMap importsOf = _
    rw [hwalk, hbody]
    rw [List.flatMap_cons, List.flatMap_append]
    have hnil : (walkList (body.flatMap PyNode.children)).flatMap importsOf
        = [] :=
      List.flatMap_eq_nil_iff.mpr fun n hn => (hinfo n (hfree n hn)).2.2
    simp [importsOf, hnil]
  have hlineF : ∀ (n : PyNode) (fi : FunctionInfo),
      funcInfoOf n = some fi → fi.lineno = n.linenoOf := by
    intro n fi h
    cases n <;> simp [funcInfoOf] at h <;> simp [← h, PyNode.linenoOf]
  have hlineC : ∀ (n : PyNode) (ci : ClassInfo),
      classInfoOf n = some ci → ci.lineno = n.linenoOf := by
    intro n ci h
    cases n <;> simp [classInfoOf] at h <;> simp [← h, PyNode.linenoOf]
  refine ⟨hfuns, hcls, himp, ?_, ?_⟩
  · rw [hfuns]
    refine List.Pairwise.filterMap funcInfoOf ?_ hord
    intro a a' hle x hx y hy
    rw [hlineF a x (Option.mem_def.mp hx), hlineF a' y (Option.mem_def.mp hy)]
    exact hle
  · rw [hcls]
    refine List.Pairwise.filterMap classInfoOf ?_ hord
    intro a a' hle x hx y hy
    rw [hlineC a x (Option.mem_def.mp hx), hlineC a' y (Option.mem_def.mp hy)]
    exact hle

/-- C7 witness: a module with two top-level functions on lines 1 and 2 and
no nested definitions has its `functions` sequence in source order. -/
theorem C7_top_level_defs_source_order_witness :
    (extractCodeStructure
        (.module [.funcDef "a" [] 1 (some 1) none [] [],
                  .funcDef "b" [] 2 (some 2) none [] []]) "x").functions =
      [PyNode.funcDef "a" [] 1 (some 1) none [] [],
       PyNode.funcDef "b" [] 2 (some 2) none [] []].filterMap funcInfoOf ∧
    List.Pairwise (fun a b => a.lineno ≤ b.lineno)
      (extractCodeStructure
        (.module [.funcDef "a" [] 1 (some 1) none [] [],
                  .funcDef "b" [] 2 (some 2) none [] []]) "x").functions := by
  have h := C7_top_level_defs_source_order
    [.funcDef "a" [] 1 (some 1) none [] [],
     .funcDef "b" [] 2 (some 2) none [] []] "x"
    (by simp [defFreeL, walkList, PyNode.children])
    (by simp [PyNode.linenoOf])
  exact ⟨h.1, h.2.2.2.1⟩

end CodeReviewAssistant
